import Mathlib

/-!
Shallow embedding of the core of the Janitor Discord moderation bot
(broadcast fan-out, per-guild moderation decisions, webhook fan-out,
per-user lock map, and the honeypot sliding-window detector), together
with proofs about the embedded operations.

Integer identifiers (guild/user/channel/role ids) are modelled as `Nat`,
monotonic instants as `Nat` ticks, and strings as Lean `String`s.
Discord and database calls are modelled by passing their outcomes in
explicitly; the effectful functions return the list of observable
effects they emit.
-/

namespace Janitor

/-! ## Data model (from `database/controllers` and `broadcast`) -/

/-- `ActionLevel` from `serverconfig_model_controller.rs`. -/
inductive ActionLevel
  | Notify
  | Timeout
  | Kick
  | SoftBan
  | Ban
deriving DecidableEq, Repr

/-- `BadActorType` from `badactor_model_controller.rs` (the variant set used by
`broadcast/moderate.rs` and `honeypot/message.rs`, which includes `Honeypot`). -/
inductive BadActorType
  | Spam
  | Impersonation
  | Bigotry
  | Honeypot
deriving DecidableEq, Repr

/-- The `Display` impl for `BadActorType` (lower-case names). -/
def BadActorType.display : BadActorType → String
  | .Spam => "spam"
  | .Impersonation => "impersonation"
  | .Bigotry => "bigotry"
  | .Honeypot => "honeypot"

/-- `BroadcastType` from `broadcast/broadcast_handler.rs`. -/
inductive BroadcastType
  | Report
  | Deactivate
  | AddScreenshot
  | ReplaceScreenshot
  | UpdateExplanation
  | Honeypot
deriving DecidableEq, Repr

/-- `BroadcastType::is_new_report` from `broadcast/broadcast_handler.rs`. -/
def BroadcastType.is_new_report : BroadcastType → Bool
  | .Report => true
  | .Honeypot => true
  | _ => false

/-- `ServerConfig` from `serverconfig_model_controller.rs`. -/
structure ServerConfig where
  guild_id : Nat
  log_channel_id : Option Nat
  ping_users : Bool
  ping_role : Option Nat
  honeypot_channel_id : Option Nat
  spam_action_level : ActionLevel
  impersonation_action_level : ActionLevel
  bigotry_action_level : ActionLevel
  honeypot_action_level : ActionLevel
  ignored_roles : List Nat
  created_at : Nat
  updated_at : Nat
  ban_reason : Option String
deriving DecidableEq, Repr

/-- `BadActor` from `badactor_model_controller.rs`. -/
structure BadActor where
  id : Int
  user_id : Nat
  is_active : Bool
  actor_type : BadActorType
  origin_guild_id : Nat
  screenshot_proof : Option String
  explanation : Option String
  created_at : Nat
  updated_at : Nat
  updated_by_user_id : Nat
deriving DecidableEq, Repr

/-- `BadActor::ban_reason` from `badactor_model_controller.rs`:
`format!("Bad Actor {} ({})", self.actor_type, self.id)`. -/
def BadActor.ban_reason (b : BadActor) : String :=
  "Bad Actor " ++ b.actor_type.display ++ " (" ++ toString b.id ++ ")"

/-- A Discord user (`serenity::User`), reduced to the fields the embedded code reads. -/
structure User where
  id : Nat
  name : String
deriving DecidableEq, Repr

/-- A Discord guild member (`serenity::Member`), reduced to the fields the
embedded code reads. -/
structure Member where
  user : User
  roles : List Nat
deriving DecidableEq, Repr

/-- A Discord guild (`serenity::PartialGuild`), reduced to id and name. -/
structure PartialGuild where
  id : Nat
  name : String
deriving DecidableEq, Repr

/-- A Discord guild channel (`serenity::GuildChannel`), reduced to id and name. -/
structure GuildChannel where
  id : Nat
  name : String
deriving DecidableEq, Repr

/-- `ServerConfigComplete` from `serverconfig_model_controller.rs`. -/
structure ServerConfigComplete where
  guild : PartialGuild
  server_config : ServerConfig
  users : List Nat
deriving DecidableEq, Repr

/-- `BroadcastListener` from `broadcast/listener.rs`. -/
structure BroadcastListener where
  config : ServerConfigComplete
  log_channel : GuildChannel
deriving DecidableEq, Repr

/-! ## Formatting helpers (from `util/format.rs`) -/

/-- Rust `char::is_ascii_alphanumeric`. -/
def is_ascii_alphanumeric (c : Char) : Bool :=
  ('a' ≤ c && c ≤ 'z') || ('A' ≤ c && c ≤ 'Z') || ('0' ≤ c && c ≤ '9')

/-- Rust `char::is_ascii_whitespace`. -/
def is_ascii_whitespace (c : Char) : Bool :=
  c = ' ' || c = '\t' || c = '\n' || c = '\x0c' || c = '\r'

/-- `format::escape_markdown`: escape every character that is not ASCII
alphanumeric or ASCII whitespace with a backslash. -/
def escape_markdown (input : String) : String :=
  String.mk (input.data.foldr
    (fun c acc =>
      if is_ascii_alphanumeric c || is_ascii_whitespace c then c :: acc
      else '\\' :: c :: acc) [])

/-- `format::inline_code`. -/
def inline_code (input : String) : String := "`" ++ input ++ "`"

/-- `format::display` for users: `"{name} ({id})"`. -/
def User.display (u : User) : String := u.name ++ " (" ++ toString u.id ++ ")"

/-- `format::fdisplay` for users: `"{escaped name} (`{id}`)"`. -/
def User.fdisplay (u : User) : String :=
  escape_markdown u.name ++ " (" ++ inline_code (toString u.id) ++ ")"

/-- `format::display` for guilds. -/
def PartialGuild.display (g : PartialGuild) : String := g.name ++ " (" ++ toString g.id ++ ")"

/-- `RoleId::mention` rendering (`<@&id>`). -/
def role_mention (r : Nat) : String := "<@&" ++ toString r ++ ">"

/-- `UserId::mention` rendering (`<@id>`). -/
def user_mention (u : Nat) : String := "<@" ++ toString u ++ ">"

/-! ## Honeypot sliding-window detector (from `honeypot/message.rs`) -/

/-- `HoneypotMessage` from `honeypot/message.rs`. The `timestamp` is a
monotonic instant in abstract ticks. -/
structure HoneypotMessage where
  guild_id : Nat
  user_id : Nat
  channel_id : Nat
  content : String
  timestamp : Nat
  is_in_honeypot : Bool
deriving DecidableEq, Repr

/-- The 60-second eviction window (`Duration::from_secs(60)`), in the same
ticks as `HoneypotMessage.timestamp`. -/
def honeypotWindow : Nat := 60

/-- A queue entry is still inside the window at instant `now`:
`now - msg.timestamp < Duration::from_secs(60)`. -/
def is_fresh (now : Nat) (msg : HoneypotMessage) : Bool :=
  now - msg.timestamp < honeypotWindow

/-- The index of the first queue entry younger than the window
(`queue.iter().enumerate().find(...).map(|(i, _)| i).unwrap_or(queue.len())`
in `remove_old_messages`). -/
def first_new_idx (now : Nat) : List HoneypotMessage → Nat
  | [] => 0
  | msg :: rest =>
    if now - msg.timestamp < honeypotWindow then 0 else first_new_idx now rest + 1

/-- `remove_old_messages` from `honeypot/message.rs`: drain the queue prefix
before the first entry younger than 60 seconds; return the drained entries
that were honeypot-channel messages, together with the remaining queue
(the source mutates the queue in place; here the second component is the
queue after the drain). -/
def remove_old_messages (queue : List HoneypotMessage) (now : Nat) :
    List HoneypotMessage × List HoneypotMessage :=
  let i := first_new_idx now queue
  ((queue.take i).filter (fun m => m.is_in_honeypot), queue.drop i)

/-- The loop body of `should_report`: walk the queue keeping the
`is_any_in_honeypot` accumulator and the `seen_channel_ids` vector. -/
def should_report_loop (new_msg : HoneypotMessage) :
    List HoneypotMessage → Bool → List Nat → Bool × List Nat
  | [], any_hp, seen => (any_hp, seen)
  | q :: rest, any_hp, seen =>
    if q.user_id = new_msg.user_id ∧ q.content = new_msg.content then
      if q.channel_id ∈ seen then
        should_report_loop new_msg rest any_hp seen
      else
        should_report_loop new_msg rest (any_hp || q.is_in_honeypot) (seen ++ [q.channel_id])
    else
      should_report_loop new_msg rest any_hp seen

/-- `should_report` from `honeypot/message.rs`. -/
def should_report (queue : List HoneypotMessage) (new_msg : HoneypotMessage) : Bool :=
  let res := should_report_loop new_msg queue new_msg.is_in_honeypot [new_msg.channel_id]
  decide (3 ≤ res.2.length) && res.1

/-- The result of the queue-manipulating part of `handle_message`. -/
structure HandleMessageResult where
  new_queue : List HoneypotMessage
  evicted_honeypot : List HoneypotMessage
  reported : Bool
deriving DecidableEq, Repr

/-- The critical section of `handle_message` in `honeypot/message.rs`:
evict old entries, build the new entry stamped with `now`, compute
`should_report` against the post-eviction queue, and push the new entry. -/
def handle_message_queue (queue : List HoneypotMessage)
    (guild_id user_id channel_id : Nat) (content : String)
    (is_in_honeypot : Bool) (now : Nat) : HandleMessageResult :=
  let evicted := (remove_old_messages queue now).1
  let remaining := (remove_old_messages queue now).2
  let new_msg : HoneypotMessage :=
    { guild_id := guild_id, user_id := user_id, channel_id := channel_id
      content := content, timestamp := now, is_in_honeypot := is_in_honeypot }
  { new_queue := remaining ++ [new_msg]
    evicted_honeypot := evicted
    reported := should_report remaining new_msg }

/-! Spec-side formulations for the honeypot claims (from the spec's words,
for comparison with the source translation). -/

/-- A queued message matches the new one: same author, byte-identical content. -/
def content_matches (new_msg q : HoneypotMessage) : Prop :=
  q.user_id = new_msg.user_id ∧ q.content = new_msg.content

instance (new_msg q : HoneypotMessage) : Decidable (content_matches new_msg q) := by
  unfold content_matches
  infer_instance

/-- All channels carrying an identical post: the new message's own channel
followed by the channels of the matching queue entries. -/
def match_channels (queue : List HoneypotMessage) (new_msg : HoneypotMessage) : List Nat :=
  new_msg.channel_id :: (queue.filter (fun q => decide (content_matches new_msg q))).map
    (fun m => m.channel_id)

/-- Modelled from the spec: report iff the same user posted identical content
in at least 3 distinct channels (counting the new message's channel) and at
least one of those identical posts, old or new, was in a honeypot channel. -/
def spec_should_report (queue : List HoneypotMessage) (new_msg : HoneypotMessage) : Bool :=
  decide (3 ≤ (match_channels queue new_msg).dedup.length) &&
    (new_msg.is_in_honeypot ||
      (queue.filter (fun q => decide (content_matches new_msg q))).any
        (fun m => m.is_in_honeypot))

/-- The honeypot flag is a function of the channel across the considered
messages (true in any window during which the registered honeypot-channel
set does not change, since the flag is computed from the channel id). -/
def honeypot_consistent (msgs : List HoneypotMessage) : Prop :=
  ∀ m1 ∈ msgs, ∀ m2 ∈ msgs,
    m1.channel_id = m2.channel_id → m1.is_in_honeypot = m2.is_in_honeypot

instance (msgs : List HoneypotMessage) : Decidable (honeypot_consistent msgs) := by
  unfold honeypot_consistent
  infer_instance

/-- The queue is sorted by non-decreasing timestamp. -/
def sorted_by_timestamp (queue : List HoneypotMessage) : Prop :=
  queue.Pairwise (fun a b => a.timestamp ≤ b.timestamp)

instance (queue : List HoneypotMessage) : Decidable (sorted_by_timestamp queue) := by
  unfold sorted_by_timestamp
  infer_instance

/-! ## Moderation engine (from `broadcast/moderate.rs`) -/

/-- `GuildId::everyone_role`: the `@everyone` role id equals the guild id. -/
def everyone_role (guild_id : Nat) : Nat := guild_id

/-- `get_non_ignored_roles` from `broadcast/moderate.rs`: the member's roles
with the guild's `@everyone` role and every configured ignored role skipped,
in order. -/
def get_non_ignored_roles : List Nat → List Nat → Nat → List Nat
  | [], _, _ => []
  | role :: rest, ignored_roles, guild_id =>
    if role = everyone_role guild_id then
      get_non_ignored_roles rest ignored_roles guild_id
    else if role ∈ ignored_roles then
      get_non_ignored_roles rest ignored_roles guild_id
    else
      role :: get_non_ignored_roles rest ignored_roles guild_id

/-- `get_moderation_action` from `broadcast/moderate.rs`. -/
def get_moderation_action (broadcast_type : BroadcastType)
    (actor_type : BadActorType) (server_config : ServerConfig) : ActionLevel :=
  if !broadcast_type.is_new_report then ActionLevel.Notify
  else
    match actor_type with
    | .Spam => server_config.spam_action_level
    | .Impersonation => server_config.impersonation_action_level
    | .Bigotry => server_config.bigotry_action_level
    | .Honeypot => server_config.honeypot_action_level

/-- Modelled from the spec: the per-category action level a new report maps
to (Spam→spam, Impersonation→impersonation, Bigotry→bigotry,
Honeypot→honeypot). -/
def category_action_level (actor_type : BadActorType) (server_config : ServerConfig) :
    ActionLevel :=
  match actor_type with
  | .Spam => server_config.spam_action_level
  | .Impersonation => server_config.impersonation_action_level
  | .Bigotry => server_config.bigotry_action_level
  | .Honeypot => server_config.honeypot_action_level

/-- A Discord REST mutation issued by the moderation engine. -/
inductive DiscordCall
  | banWithReason (guild_id user_id delete_days : Nat) (reason : String)
  | ban (guild_id user_id delete_days : Nat)
  | unban (guild_id user_id : Nat)
  | kick (guild_id user_id : Nat)
  | timeout (guild_id user_id : Nat)
deriving DecidableEq, Repr

/-- An observable effect of running the moderation engine. A `discord` effect
records the attempted REST mutation and whether Discord accepted it; a
`log_channel_send` effect records a message posted (or attempted) to the
listener guild's log channel; a `central_error` effect records a call to the
central `Logger::error` sink. -/
inductive Effect
  | discord (call : DiscordCall) (ok : Bool)
  | log_channel_send (content : String) (ok : Bool)
  | central_error (msg : String)
deriving DecidableEq, Repr

/-- Outcomes of the Discord calls a single `moderate` invocation can make,
passed in explicitly (the environment decides which REST calls succeed). -/
structure DiscordEnv where
  ban_ok : Bool
  unban_ok : Bool
  kick_ok : Bool
  timeout_ok : Bool
  send_ok : Bool
deriving DecidableEq, Repr

/-- The `ban` helper of `broadcast/moderate.rs`: `ban_with_reason(.., 7, ..)`,
then on success a result message to the log channel; any failure aborts the
helper with an error result. -/
def ban_run (env : DiscordEnv) (guild : PartialGuild) (target : User)
    (reason : String) : List Effect × Bool :=
  let call := Effect.discord (.banWithReason guild.id target.id 7 reason) env.ban_ok
  if !env.ban_ok then ([call], false)
  else
    let msg := "User " ++ target.fdisplay ++ " was banned from your server!"
    ([call, .log_channel_send msg env.send_ok], env.send_ok)

/-- The `soft_ban` helper of `broadcast/moderate.rs`: ban (7-day purge), then
unban, then a result message to the log channel. -/
def soft_ban_run (env : DiscordEnv) (guild : PartialGuild) (target : User) :
    List Effect × Bool :=
  let banCall := Effect.discord (.ban guild.id target.id 7) env.ban_ok
  if !env.ban_ok then ([banCall], false)
  else
    let unbanCall := Effect.discord (.unban guild.id target.id) env.unban_ok
    if !env.unban_ok then ([banCall, unbanCall], false)
    else
      let msg := "User " ++ target.fdisplay ++ " was softbanned from your server!"
      ([banCall, unbanCall, .log_channel_send msg env.send_ok], env.send_ok)

/-- The `timeout` helper of `broadcast/moderate.rs`: 7-day communication
disable, then a result message to the log channel. -/
def timeout_run (env : DiscordEnv) (guild : PartialGuild) (member : Member) :
    List Effect × Bool :=
  let call := Effect.discord (.timeout guild.id member.user.id) env.timeout_ok
  if !env.timeout_ok then ([call], false)
  else
    let msg := "User " ++ member.user.fdisplay ++ " was timed out for 7 days!"
    ([call, .log_channel_send msg env.send_ok], env.send_ok)

/-- The `kick` helper of `broadcast/moderate.rs`. -/
def kick_run (env : DiscordEnv) (guild : PartialGuild) (member : Member) :
    List Effect × Bool :=
  let call := Effect.discord (.kick guild.id member.user.id) env.kick_ok
  if !env.kick_ok then ([call], false)
  else
    let msg := "User " ++ member.user.fdisplay ++ " was kicked from your server!"
    ([call, .log_channel_send msg env.send_ok], env.send_ok)

/-- `log_moderation_result` from `broadcast/moderate.rs`: central error log
iff the moderation result was an error. -/
def log_moderation_result_run (ok : Bool) (target : User) (guild : PartialGuild) :
    List Effect :=
  if ok then []
  else [.central_error ("Error moderating " ++ target.display ++ " in " ++ guild.display)]

/-- `inform_about_non_ignored` from `broadcast/moderate.rs`: informational
skip message to the log channel; a failure to send is centrally logged. -/
def inform_about_non_ignored_run (env : DiscordEnv) (non_ignored_roles : List Nat)
    (_log_channel : GuildChannel) (guild : PartialGuild) (target : User) : List Effect :=
  let roles := String.intercalate ", " (non_ignored_roles.map role_mention)
  let content := "User " ++ target.fdisplay ++
    " has roles that are not ignored. Those roles are " ++ roles ++
    ". Skipping all moderation action."
  let send := Effect.log_channel_send content env.send_ok
  if env.send_ok then [send]
  else
    [send, .central_error ("Failed to inform " ++ guild.display ++
      " that the member " ++ target.display ++
      " cannot be moderated since they have roles that are not ignored.")]

/-- The `match action_level` dispatch of `moderate` in `broadcast/moderate.rs`
(the member path): run the helper for the resolved action level. -/
def action_dispatch (env : DiscordEnv) (action_level : ActionLevel)
    (guild : PartialGuild) (target : User) (mem : Member) (reason : String) :
    List Effect × Bool :=
  match action_level with
  | .Notify => ([], true)
  | .Timeout => timeout_run env guild mem
  | .Kick => kick_run env guild mem
  | .SoftBan => soft_ban_run env guild target
  | .Ban => ban_run env guild target reason

/-- `moderate` from `broadcast/moderate.rs`, with the target's membership
lookup result (`member(..).ok()`) and the Discord call outcomes passed in;
returns the emitted effects. The function is total: no failure of a Discord
call escapes as an error result. -/
def moderate_run (env : DiscordEnv) (broadcast_type : BroadcastType)
    (listener : BroadcastListener) (bad_actor : BadActor) (target_user : User)
    (member : Option Member) : List Effect :=
  let action_level :=
    get_moderation_action broadcast_type bad_actor.actor_type listener.config.server_config
  if action_level = ActionLevel.Notify then []
  else
    match member with
    | none =>
      if action_level = ActionLevel.Ban then
        -- `let _ban_result = ban(...)`: the helper's result is discarded
        (ban_run env listener.config.guild target_user bad_actor.ban_reason).1
      else
        let content := "User " ++ target_user.fdisplay ++
          " is not a member of your server. Skipping moderation."
        let send := Effect.log_channel_send content env.send_ok
        if env.send_ok then [send]
        else
          [send, .central_error ("Failed to send user not member message to #" ++
            listener.log_channel.name ++ " in " ++ listener.config.guild.display)]
    | some mem =>
      let non_ignored := get_non_ignored_roles mem.roles
        listener.config.server_config.ignored_roles listener.config.guild.id
      if non_ignored ≠ [] then
        inform_about_non_ignored_run env non_ignored listener.log_channel
          listener.config.guild target_user
      else
        let run := action_dispatch env action_level listener.config.guild target_user mem
          bad_actor.ban_reason
        run.1 ++ log_moderation_result_run run.2 target_user listener.config.guild

/-- `true` exactly on the effects that are Discord-side mutations. -/
def Effect.is_discord_call : Effect → Bool
  | .discord _ _ => true
  | _ => false

/-- `true` exactly on log-channel send effects. -/
def Effect.is_log_channel_send : Effect → Bool
  | .log_channel_send _ _ => true
  | _ => false

/-- `true` exactly on central error-log effects. -/
def Effect.is_central_error : Effect → Bool
  | .central_error _ => true
  | _ => false

/-- `true` exactly on log-channel messages that Discord accepted. -/
def Effect.is_successful_send : Effect → Bool
  | .log_channel_send _ true => true
  | _ => false

/-- Whether all the Discord action calls a given action level performs (in the
member path) succeed in the given environment. -/
def action_ok (env : DiscordEnv) : ActionLevel → Bool
  | .Notify => true
  | .Timeout => env.timeout_ok
  | .Kick => env.kick_ok
  | .SoftBan => env.ban_ok && env.unban_ok
  | .Ban => env.ban_ok

/-! ## Listener message pings (from `broadcast/send.rs`) -/

/-- `get_message_with_pings` from `broadcast/send.rs`. -/
def get_message_with_pings (content : String) (config : ServerConfigComplete)
    (bad_actor : BadActor) (action_level : ActionLevel) : String :=
  let reporting_guild := bad_actor.origin_guild_id
  let current_guild := config.server_config.guild_id
  if reporting_guild = current_guild then content
  else if action_level ≠ ActionLevel.Notify then content
  else
    let content1 :=
      match config.server_config.ping_role with
      | some ping_role => content ++ "\n" ++ role_mention ping_role
      | none => content
    if config.server_config.ping_users then
      let user_mentions := String.intercalate "\n" (config.users.map user_mention)
      content1 ++ "\n" ++ user_mentions
    else content1

/-! ## Webhook fan-out (from `broadcast/webhooks.rs`) -/

/-- `BroadcastWebhook` from `broadcast/webhooks.rs`: a stored webhook row
after the string fields are parsed. -/
structure BroadcastWebhook where
  guild_id : Nat
  guild_name : String
  webhook_url : String
deriving DecidableEq, Repr

/-- `WebhookListener` from `broadcast/webhooks.rs`: a row whose URL resolved
into a live webhook handle (identified here by its URL). -/
structure WebhookListener where
  guild_id : Nat
  guild_name : String
  webhook : String
deriving DecidableEq, Repr

/-- An observable effect of the webhook fan-out. -/
inductive WebhookEffect
  | central_log (msg : String)
  | execute (guild_id : Nat) (content : String) (ok : Bool)
deriving DecidableEq, Repr

/-- The error message logged when a row's URL fails to resolve into a live
webhook handle: `get_discord_webhooks` prefers the resolved guild display and
falls back to the stored name and id. -/
def fail_connect_msg (guild_display : Nat → Option String) (w : BroadcastWebhook) : String :=
  match guild_display w.guild_id with
  | some disp => "Failed to connect to webhook in guild " ++ disp
  | none => "Failed to connect to webhook in guild " ++ w.guild_name ++
      " (" ++ toString w.guild_id ++ ")"

/-- `get_discord_webhooks` from `broadcast/webhooks.rs`: resolve each stored
row's URL into a live webhook handle; a row whose resolution fails is logged
(with the guild's context) and excluded, the rest are kept in order.
`resolve_ok` gives each row's `Webhook::from_url` outcome and `guild_display`
the optional `to_partial_guild` display used in the error message. -/
def get_discord_webhooks (resolve_ok : BroadcastWebhook → Bool)
    (guild_display : Nat → Option String) :
    List BroadcastWebhook → List WebhookListener × List WebhookEffect
  | [] => ([], [])
  | w :: rest =>
    let tail := get_discord_webhooks resolve_ok guild_display rest
    if resolve_ok w then
      (⟨w.guild_id, w.guild_name, w.webhook_url⟩ :: tail.1, tail.2)
    else
      (tail.1, .central_log (fail_connect_msg guild_display w) :: tail.2)

/-- The execution stage of `broadcast_to_webhooks`: every resolved webhook is
executed with the broadcast content; a failed execution is logged and does
not affect the others. -/
def execute_webhooks (exec_ok : WebhookListener → Bool) (content : String) :
    List WebhookListener → List WebhookEffect
  | [] => []
  | l :: rest =>
    let attempt := WebhookEffect.execute l.guild_id content (exec_ok l)
    let tail := execute_webhooks exec_ok content rest
    if exec_ok l then attempt :: tail
    else attempt :: .central_log ("Failed to send broadcast embed to webhook in guild " ++
      l.guild_name ++ " (" ++ toString l.guild_id ++ ")") :: tail

/-- `broadcast_to_webhooks` from `broadcast/webhooks.rs`, starting from the
already-loaded rows: resolve all rows, then execute every resolved webhook
with the broadcast content. -/
def broadcast_to_webhooks_run (resolve_ok : BroadcastWebhook → Bool)
    (guild_display : Nat → Option String) (exec_ok : WebhookListener → Bool)
    (content : String) (rows : List BroadcastWebhook) : List WebhookEffect :=
  let resolved := get_discord_webhooks resolve_ok guild_display rows
  resolved.2 ++ execute_webhooks exec_ok content resolved.1

/-! ## Per-user lock map (from `util/locks.rs`) -/

/-- The lock registry, modelled as an association list from user id to the
stored entry's generation id (`LockValue.id`); the `DashMap` holds at most
one entry per key, modelled by key-uniqueness hypotheses. -/
abbrev LocksMap := List (Nat × Nat)

/-- The stored generation id for a user id, if an entry exists. -/
def lookup_gen (m : LocksMap) (u : Nat) : Option Nat :=
  (List.find? (fun p => p.1 = u) m).map (fun p => p.2)

/-- `DashMap::remove_if` on the entry for `key`. -/
def remove_if (m : LocksMap) (key : Nat) (pred : Nat → Bool) : LocksMap :=
  List.filter (fun p => !(p.1 = key ∧ pred p.2 : Bool)) m

/-- The `Drop` impl of `SelfRemoving` in `util/locks.rs`:
`locks().remove_if(&self.user_id, |_, value| value.id == self.id)`. -/
def self_removing_drop (m : LocksMap) (user_id id : Nat) : LocksMap :=
  remove_if m user_id (fun stored => stored = id)

/-- The map-entry effect of the fresh-mutex paths of `lock_user_id`
(vacant entry, or occupied entry whose weak reference is dead):
a new `LockValue` with generation `g` is inserted for `user_id`. -/
def lock_insert_fresh (m : LocksMap) (user_id g : Nat) : LocksMap :=
  (user_id, g) :: List.filter (fun p => !(p.1 = user_id : Bool)) m

/-! ## Concrete instances used by witnesses and counterexamples -/

/-- A concrete `ServerConfig` with a custom ban-reason template. -/
def witness_config : ServerConfig :=
  { guild_id := 5
    log_channel_id := some 9
    ping_users := false
    ping_role := none
    honeypot_channel_id := none
    spam_action_level := .Ban
    impersonation_action_level := .Notify
    bigotry_action_level := .Timeout
    honeypot_action_level := .Kick
    ignored_roles := [77]
    created_at := 0
    updated_at := 0
    ban_reason := some "Violation: \x7btype\x7d #\x7bid\x7d" }

/-- A concrete reported bad actor (spam, report id 42). -/
def witness_bad_actor : BadActor :=
  { id := 42
    user_id := 7
    is_active := true
    actor_type := .Spam
    origin_guild_id := 6
    screenshot_proof := none
    explanation := none
    created_at := 0
    updated_at := 0
    updated_by_user_id := 3 }

/-- The reported user of `witness_bad_actor`. -/
def witness_user : User := ⟨7, "evil"⟩

/-- A concrete broadcast listener for guild 5 using `witness_config`. -/
def witness_listener : BroadcastListener :=
  { config := { guild := ⟨5, "G"⟩
                server_config := witness_config
                users := [21, 22] }
    log_channel := ⟨9, "log"⟩ }

/-- An environment in which every Discord call succeeds. -/
def env_all_ok : DiscordEnv := ⟨true, true, true, true, true⟩

/-- An environment in which the ban call fails and everything else succeeds. -/
def env_ban_fail : DiscordEnv := ⟨false, true, true, true, true⟩

/-- Modelled from the spec: the ping suffix the spec describes for the
listener message — the configured ping-role mention (if one is set) followed
by, if the ping-users toggle is on, a mention of every whitelisted user. -/
def spec_ping_suffix (config : ServerConfigComplete) : String :=
  (match config.server_config.ping_role with
   | some r => "\n" ++ role_mention r
   | none => "") ++
  (if config.server_config.ping_users then
    "\n" ++ String.intercalate "\n" (config.users.map user_mention)
   else "")

/-! ## Theorems -/

/-- C3: `get_moderation_action` is characterized by its inputs alone (it is a
plain function of the triple): every non-new-report broadcast type
(Deactivate, AddScreenshot, ReplaceScreenshot, UpdateExplanation) yields
`Notify` regardless of the per-category configuration, and the new-report
types (Report, Honeypot) yield the configured per-category action level
(Spam→spam, Impersonation→impersonation, Bigotry→bigotry,
Honeypot→honeypot). -/
theorem get_moderation_action_spec (broadcast_type : BroadcastType)
    (actor_type : BadActorType) (server_config : ServerConfig) :
    (broadcast_type.is_new_report = false →
      get_moderation_action broadcast_type actor_type server_config = ActionLevel.Notify) ∧
    (broadcast_type = .Deactivate ∨ broadcast_type = .AddScreenshot ∨
        broadcast_type = .ReplaceScreenshot ∨ broadcast_type = .UpdateExplanation →
      get_moderation_action broadcast_type actor_type server_config = ActionLevel.Notify) ∧
    ((broadcast_type = .Report ∨ broadcast_type = .Honeypot) →
      get_moderation_action broadcast_type actor_type server_config =
        category_action_level actor_type server_config) := by
  cases broadcast_type <;> cases actor_type <;>
    simp [get_moderation_action, category_action_level, BroadcastType.is_new_report]

/-- Witness for C3 at concrete inputs. -/
theorem get_moderation_action_spec_witness :
    get_moderation_action .Deactivate .Spam witness_config = ActionLevel.Notify ∧
    get_moderation_action .Report .Spam witness_config =
      category_action_level .Spam witness_config :=
  ⟨(get_moderation_action_spec .Deactivate .Spam witness_config).2.1 (Or.inl rfl),
   (get_moderation_action_spec .Report .Spam witness_config).2.2 (Or.inl rfl)⟩

/-- C2: evaluating the embedded `moderate` at the failing input — the guild's
config carries the custom template `"Violation: {type} #{id}"`, the bad actor
is Spam with id 42, the action level resolves to Ban and the target is not a
member — the reason passed to the ban call is the default
`"Bad Actor spam (42)"`, not the resolved custom template: `ban_reason` never
consults `ServerConfig.ban_reason`. -/
theorem ban_reason_ignores_custom_template :
    witness_listener.config.server_config.ban_reason =
      some "Violation: \x7btype\x7d #\x7bid\x7d" ∧
    moderate_run env_all_ok .Report witness_listener witness_bad_actor witness_user none =
      [Effect.discord (.banWithReason 5 7 7 "Bad Actor spam (42)") true,
       Effect.log_channel_send "User evil (`7`) was banned from your server!" true] ∧
    "Bad Actor spam (42)" ≠ "Violation: spam #42" := by
  refine ⟨rfl, by decide, by decide⟩

/-- C8: the listener message carries no ping when the listener guild is the
report's origin guild, and none when the resolved action level is above
`Notify`; otherwise it is the content with the guild's ping-role mention
appended (when set) and, when the ping-users toggle is on, a mention of every
whitelisted user of that guild. -/
theorem get_message_with_pings_spec (content : String) (config : ServerConfigComplete)
    (bad_actor : BadActor) (action_level : ActionLevel) :
    (bad_actor.origin_guild_id = config.server_config.guild_id →
      get_message_with_pings content config bad_actor action_level = content) ∧
    (action_level ≠ ActionLevel.Notify →
      get_message_with_pings content config bad_actor action_level = content) ∧
    (bad_actor.origin_guild_id ≠ config.server_config.guild_id →
      action_level = ActionLevel.Notify →
      get_message_with_pings content config bad_actor action_level =
        content ++ spec_ping_suffix config) := by
  refine ⟨?_, ?_, ?_⟩
  · intro h
    simp [get_message_with_pings, h]
  · intro h
    by_cases horigin : bad_actor.origin_guild_id = config.server_config.guild_id <;>
      simp [get_message_with_pings, horigin, h]
  · intro horigin hlevel
    rcases hrole : config.server_config.ping_role with _ | r <;>
      rcases husers : config.server_config.ping_users with _ | _ <;>
        simp [get_message_with_pings, spec_ping_suffix, horigin, hlevel, hrole, husers,
          String.append_empty, String.append_assoc]

/-- Witness for C8 at concrete inputs. -/
theorem get_message_with_pings_spec_witness :
    get_message_with_pings "hi" witness_listener.config witness_bad_actor
        ActionLevel.Ban = "hi" ∧
    get_message_with_pings "hi" witness_listener.config witness_bad_actor
        ActionLevel.Notify = "hi" ++ spec_ping_suffix witness_listener.config :=
  ⟨(get_message_with_pings_spec "hi" witness_listener.config witness_bad_actor
      ActionLevel.Ban).2.1 (by decide),
   (get_message_with_pings_spec "hi" witness_listener.config witness_bad_actor
      ActionLevel.Notify).2.2 (by decide) rfl⟩

/-- Unfolding `lookup_gen` over a cons cell. -/
theorem lookup_gen_cons (k v u' : Nat) (tail : LocksMap) :
    lookup_gen ((k, v) :: tail) u' =
      if k = u' then some v else lookup_gen tail u' := by
  unfold lookup_gen
  rw [List.find?_cons]
  by_cases h : k = u'
  · simp [h]
  · simp [h]

/-- Unfolding a guard drop over a cons cell. -/
theorem self_removing_drop_cons (k v u g : Nat) (tail : LocksMap) :
    self_removing_drop ((k, v) :: tail) u g =
      if k = u ∧ v = g then self_removing_drop tail u g
      else (k, v) :: self_removing_drop tail u g := by
  unfold self_removing_drop remove_if
  rw [List.filter_cons]
  by_cases h : k = u ∧ v = g
  · simp [h]
  · simp [h]

/-- A key that is absent from the map stays absent and every other lookup is
untouched by a guard drop for it. -/
theorem lookup_gen_eq_none_of_key_absent (u' : Nat) (m : LocksMap)
    (h : u' ∉ m.map Prod.fst) : lookup_gen m u' = none := by
  unfold lookup_gen
  rw [List.find?_eq_none.mpr]
  · rfl
  · intro p hp
    simp only [decide_eq_true_eq]
    intro hpk
    exact h (hpk ▸ List.mem_map_of_mem Prod.fst hp)

/-- C4: dropping a guard for user `u` with generation `g` removes the map
entry for `u` exactly when the stored generation is `g` and leaves every
other entry untouched; consequently the entry for `u` is gone after the drop
when it stored `g`, survives when it stored a different generation, and a
freshly inserted newer-generation entry is never evicted by an
old-generation drop. -/
theorem lock_drop_spec (m : LocksMap) (u g : Nat)
    (hkeys : (m.map Prod.fst).Nodup) :
    (∀ u', lookup_gen (self_removing_drop m u g) u' =
      if u' = u ∧ lookup_gen m u' = some g then none else lookup_gen m u') ∧
    (lookup_gen m u = some g → lookup_gen (self_removing_drop m u g) u = none) ∧
    (∀ g', g' ≠ g → lookup_gen m u = some g' →
      lookup_gen (self_removing_drop m u g) u = some g') ∧
    (∀ g', g ≠ g' →
      lookup_gen (self_removing_drop (lock_insert_fresh m u g') u g) u = some g') := by
  have hchar : ∀ (m' : LocksMap), (m'.map Prod.fst).Nodup → ∀ u',
      lookup_gen (self_removing_drop m' u g) u' =
        if u' = u ∧ lookup_gen m' u' = some g then none else lookup_gen m' u' := by
    intro m'
    induction m' with
    | nil =>
      intro _ u'
      simp [lookup_gen, self_removing_drop, remove_if]
    | cons p rest ih =>
      intro hnodup u'
      obtain ⟨k, v⟩ := p
      rw [List.map_cons, List.nodup_cons] at hnodup
      obtain ⟨hk, hrest⟩ := hnodup
      rw [self_removing_drop_cons, lookup_gen_cons]
      by_cases hd : k = u ∧ v = g
      · rw [if_pos hd]
        obtain ⟨hku, hvg⟩ := hd
        have habsent : u ∉ rest.map Prod.fst := hku ▸ hk
        have hdrop_rest : self_removing_drop rest u g = rest := by
          unfold self_removing_drop remove_if
          refine List.filter_eq_self.mpr ?_
          intro q hq
          simp only [Bool.not_eq_eq_eq_not, Bool.not_true, decide_eq_false_iff_not]
          rintro ⟨hq1, _⟩
          exact habsent (hq1 ▸ List.mem_map_of_mem Prod.fst hq)
        rw [hdrop_rest]
        by_cases hu' : k = u'
        · rw [if_pos hu', if_pos ⟨(hu' ▸ hku : u' = u), hvg ▸ rfl⟩]
          exact lookup_gen_eq_none_of_key_absent u' rest (hu' ▸ hk)
        · rw [if_neg hu', if_neg]
          rintro ⟨h1, _⟩
          exact hu' (hku.trans h1.symm)
      · rw [if_neg hd, lookup_gen_cons]
        by_cases hu' : k = u'
        · rw [if_pos hu', if_pos hu', if_neg]
          rintro ⟨h1, h2⟩
          exact hd ⟨hu'.trans h1, by injection h2⟩
        · rw [if_neg hu', if_neg hu', ih hrest u']
  refine ⟨hchar m hkeys, ?_, ?_, ?_⟩
  · intro hg
    rw [hchar m hkeys u, if_pos ⟨rfl, hg⟩]
  · intro g' hne hg'
    rw [hchar m hkeys u, if_neg, hg']
    rintro ⟨_, hc⟩
    rw [hg'] at hc
    exact hne (by injection hc)
  · intro g' hne
    unfold lock_insert_fresh
    rw [self_removing_drop_cons, if_neg, lookup_gen_cons, if_pos rfl]
    rintro ⟨_, hc⟩
    exact hne hc.symm

/-- On a timestamp-sorted queue, the prefix drain of `remove_old_messages`
(everything before the first entry younger than the window) is the same as
splitting the queue into its stale and fresh entries. -/
theorem remove_old_split (now : Nat) :
    ∀ (queue : List HoneypotMessage), sorted_by_timestamp queue →
      queue.drop (first_new_idx now queue) = queue.filter (is_fresh now) ∧
      queue.take (first_new_idx now queue) =
        queue.filter (fun m => !is_fresh now m) := by
  intro queue
  induction queue with
  | nil => intro _; simp
  | cons m rest ih =>
    intro hsorted
    rw [sorted_by_timestamp, List.pairwise_cons] at hsorted
    obtain ⟨hm, hrest⟩ := hsorted
    by_cases hfresh : now - m.timestamp < honeypotWindow
    · have hmfresh : is_fresh now m = true := by
        unfold is_fresh
        simpa using hfresh
      have hall : ∀ b ∈ rest, is_fresh now b = true := by
        intro b hb
        unfold is_fresh
        simp only [decide_eq_true_eq]
        exact lt_of_le_of_lt (Nat.sub_le_sub_left (hm b hb) now) hfresh
      have hidx : first_new_idx now (m :: rest) = 0 := by
        unfold first_new_idx
        rw [if_pos hfresh]
      constructor
      · rw [hidx, List.drop_zero, List.filter_cons, if_pos hmfresh,
          List.filter_eq_self.mpr hall]
      · rw [hidx, List.take_zero, List.filter_cons,
          if_neg (by simp [hmfresh]), List.filter_eq_nil_iff.mpr]
        intro b hb
        simp [hall b hb]
    · have hmstale : is_fresh now m = false := by
        unfold is_fresh
        simpa using hfresh
      have hidx : first_new_idx now (m :: rest) = first_new_idx now rest + 1 := by
        simp [first_new_idx, hfresh]
      obtain ⟨ih1, ih2⟩ := ih hrest
      constructor
      · rw [hidx, List.drop_succ_cons, List.filter_cons, if_neg (by simp [hmstale]), ih1]
      · rw [hidx, List.take_succ_cons, List.filter_cons, if_pos (by simp [hmstale]), ih2]

/-- C9: on a (reachable, i.e. timestamp-sorted) queue state, the eviction
step keeps exactly the entries younger than 60 seconds — everything at least
60 seconds old is removed and thus excluded from the subsequent duplicate
scan — and an evicted entry lands in the returned "evicted honeypot
messages" list iff it was itself a honeypot-channel message. -/
theorem remove_old_messages_spec (queue : List HoneypotMessage) (now : Nat)
    (hsorted : sorted_by_timestamp queue) :
    (remove_old_messages queue now).2 = queue.filter (is_fresh now) ∧
    (remove_old_messages queue now).1 =
      (queue.filter (fun m => !is_fresh now m)).filter (fun m => m.is_in_honeypot) ∧
    (∀ m, m ∈ (remove_old_messages queue now).1 ↔
      m ∈ queue ∧ honeypotWindow ≤ now - m.timestamp ∧ m.is_in_honeypot = true) ∧
    (∀ m, m ∈ (remove_old_messages queue now).2 ↔
      m ∈ queue ∧ now - m.timestamp < honeypotWindow) := by
  obtain ⟨hdrop, htake⟩ := remove_old_split now queue hsorted
  have h2 : (remove_old_messages queue now).2 = queue.filter (is_fresh now) := hdrop
  have h1 : (remove_old_messages queue now).1 =
      (queue.filter (fun m => !is_fresh now m)).filter (fun m => m.is_in_honeypot) := by
    show (queue.take (first_new_idx now queue)).filter (fun m => m.is_in_honeypot) = _
    rw [htake]
  refine ⟨h2, h1, ?_, ?_⟩
  · intro m
    rw [h1]
    simp only [List.mem_filter, Bool.not_eq_true', and_assoc]
    unfold is_fresh
    simp [Nat.not_lt]
  · intro m
    rw [h2]
    simp only [List.mem_filter]
    unfold is_fresh
    simp

/-- Witness for C9 at a concrete sorted queue. -/
theorem remove_old_messages_spec_witness :
    sorted_by_timestamp
      [⟨1, 1, 1, "a", 0, true⟩, ⟨1, 1, 2, "a", 50, false⟩, ⟨1, 2, 3, "b", 80, true⟩] ∧
    (remove_old_messages
      [⟨1, 1, 1, "a", 0, true⟩, ⟨1, 1, 2, "a", 50, false⟩, ⟨1, 2, 3, "b", 80, true⟩]
      100).2 =
      List.filter (is_fresh 100)
        [⟨1, 1, 1, "a", 0, true⟩, ⟨1, 1, 2, "a", 50, false⟩, ⟨1, 2, 3, "b", 80, true⟩] :=
  ⟨by decide,
   (remove_old_messages_spec
      [⟨1, 1, 1, "a", 0, true⟩, ⟨1, 1, 2, "a", 50, false⟩, ⟨1, 2, 3, "b", 80, true⟩]
      100 (by decide)).1⟩

/-- C10: the queue is kept sorted by non-decreasing timestamp: when the clock
reading `now` taken under the queue mutex is at least every queued timestamp,
the pushed entry (stamped `now`) is newest, the post-push queue is again
sorted with all timestamps at most `now` (hence at most any later reading),
and on such sorted queues the eviction step's prefix drain is equivalent to
removing all stale entries. -/
theorem honeypot_queue_sorted_invariant (queue : List HoneypotMessage)
    (guild_id user_id channel_id : Nat) (content : String) (hp : Bool) (now : Nat)
    (hsorted : sorted_by_timestamp queue) (hle : ∀ m ∈ queue, m.timestamp ≤ now) :
    (∀ m ∈ (remove_old_messages queue now).2, m.timestamp ≤ now) ∧
    sorted_by_timestamp
      (handle_message_queue queue guild_id user_id channel_id content hp now).new_queue ∧
    (∀ now', now ≤ now' →
      ∀ m ∈ (handle_message_queue queue guild_id user_id channel_id content hp
        now).new_queue, m.timestamp ≤ now') ∧
    (remove_old_messages queue now).2 = queue.filter (is_fresh now) := by
  obtain ⟨hdrop', _⟩ := remove_old_split now queue hsorted
  have hdrop : (remove_old_messages queue now).2 = queue.filter (is_fresh now) := hdrop'
  have hsub : ∀ m ∈ (remove_old_messages queue now).2, m ∈ queue := by
    intro m hm
    rw [hdrop] at hm
    exact (List.mem_filter.mp hm).1
  have hrem_le : ∀ m ∈ (remove_old_messages queue now).2, m.timestamp ≤ now :=
    fun m hm => hle m (hsub m hm)
  have hrem_sorted : sorted_by_timestamp (remove_old_messages queue now).2 := by
    rw [sorted_by_timestamp, hdrop]
    exact List.Pairwise.sublist (List.filter_sublist queue) hsorted
  have hqueue : (handle_message_queue queue guild_id user_id channel_id content hp
      now).new_queue = (remove_old_messages queue now).2 ++
      [{ guild_id := guild_id, user_id := user_id, channel_id := channel_id
         content := content, timestamp := now, is_in_honeypot := hp }] := rfl
  refine ⟨hrem_le, ?_, ?_, hdrop⟩
  · rw [hqueue, sorted_by_timestamp, List.pairwise_append]
    refine ⟨hrem_sorted, by simp, ?_⟩
    intro a ha b hb
    rw [List.mem_singleton] at hb
    subst hb
    exact hrem_le a ha
  · intro now' hnow' m hm
    rw [hqueue, List.mem_append] at hm
    rcases hm with hm | hm
    · exact le_trans (hrem_le m hm) hnow'
    · rw [List.mem_singleton] at hm
      subst hm
      exact hnow'

/-- Witness for C10 at a concrete sorted queue. -/
theorem honeypot_queue_sorted_invariant_witness :
    sorted_by_timestamp [⟨1, 1, 1, "a", 0, true⟩, ⟨1, 1, 2, "a", 50, false⟩] ∧
    (∀ m ∈ ([⟨1, 1, 1, "a", 0, true⟩, ⟨1, 1, 2, "a", 50, false⟩] :
        List HoneypotMessage), m.timestamp ≤ 100) ∧
    sorted_by_timestamp
      (handle_message_queue [⟨1, 1, 1, "a", 0, true⟩, ⟨1, 1, 2, "a", 50, false⟩]
        1 1 3 "a" false 100).new_queue :=
  ⟨by decide, by decide,
   (honeypot_queue_sorted_invariant [⟨1, 1, 1, "a", 0, true⟩, ⟨1, 1, 2, "a", 50, false⟩]
      1 1 3 "a" false 100 (by decide) (by decide)).2.1⟩

/-- Every listener that reached the execution stage gets an execution attempt
with the broadcast content. -/
theorem execute_webhooks_mem (exec_ok : WebhookListener → Bool) (content : String) :
    ∀ (listeners : List WebhookListener) (l : WebhookListener), l ∈ listeners →
      WebhookEffect.execute l.guild_id content (exec_ok l) ∈
        execute_webhooks exec_ok content listeners := by
  intro listeners
  induction listeners with
  | nil => intro l h; cases h
  | cons x rest ih =>
    intro l hl
    rw [List.mem_cons] at hl
    by_cases hx : exec_ok x = true
    · rcases hl with rfl | hl
      · simp [execute_webhooks, hx]
      · simp only [execute_webhooks, hx, if_pos]
        exact List.mem_cons_of_mem _ (ih l hl)
    · rcases hl with rfl | hl
      · simp [execute_webhooks, hx]
      · simp only [execute_webhooks, hx, if_neg, Bool.false_eq_true, if_false]
        exact List.mem_cons_of_mem _ (List.mem_cons_of_mem _ (ih l hl))

/-- C5: in the webhook fan-out, a row whose URL fails to resolve into a live
webhook handle is logged with that guild's context and excluded, and only
that row is excluded: the resolved listeners are exactly the resolving rows
in order, and every one of them is still executed with the broadcast
content — one URL's failure is never fatal to the batch. -/
theorem webhook_fanout_isolated (resolve_ok : BroadcastWebhook → Bool)
    (guild_display : Nat → Option String) (exec_ok : WebhookListener → Bool)
    (content : String) (rows : List BroadcastWebhook) :
    (get_discord_webhooks resolve_ok guild_display rows).1 =
      (rows.filter resolve_ok).map
        (fun w => ⟨w.guild_id, w.guild_name, w.webhook_url⟩) ∧
    (∀ w ∈ rows, resolve_ok w = false →
      WebhookEffect.central_log (fail_connect_msg guild_display w) ∈
        (get_discord_webhooks resolve_ok guild_display rows).2) ∧
    (∀ w ∈ rows, resolve_ok w = true →
      WebhookEffect.execute w.guild_id content
          (exec_ok ⟨w.guild_id, w.guild_name, w.webhook_url⟩) ∈
        broadcast_to_webhooks_run resolve_ok guild_display exec_ok content rows) := by
  have hgood : ∀ rows' : List BroadcastWebhook,
      (get_discord_webhooks resolve_ok guild_display rows').1 =
        (rows'.filter resolve_ok).map
          (fun w => ⟨w.guild_id, w.guild_name, w.webhook_url⟩) := by
    intro rows'
    induction rows' with
    | nil => simp [get_discord_webhooks]
    | cons w rest ih =>
      by_cases hw : resolve_ok w = true
      · simp [get_discord_webhooks, List.filter_cons, hw, ih]
      · simp [get_discord_webhooks, List.filter_cons, hw, ih]
  have hlogs : ∀ rows' : List BroadcastWebhook, ∀ w ∈ rows', resolve_ok w = false →
      WebhookEffect.central_log (fail_connect_msg guild_display w) ∈
        (get_discord_webhooks resolve_ok guild_display rows').2 := by
    intro rows'
    induction rows' with
    | nil => intro w h; cases h
    | cons w0 rest ih =>
      intro w hw hfail
      rw [List.mem_cons] at hw
      by_cases hw0 : resolve_ok w0 = true
      · rcases hw with rfl | hw
        · rw [hfail] at hw0
          cases hw0
        · simp only [get_discord_webhooks, hw0, if_pos]
          exact ih w hw hfail
      · rcases hw with rfl | hw
        · simp [get_discord_webhooks, hw0]
        · simp only [get_discord_webhooks, hw0, Bool.false_eq_true, if_false]
          exact List.mem_cons_of_mem _ (ih w hw hfail)
  refine ⟨hgood rows, hlogs rows, ?_⟩
  intro w hw hok
  unfold broadcast_to_webhooks_run
  rw [List.mem_append]
  right
  refine execute_webhooks_mem exec_ok content _ ⟨w.guild_id, w.guild_name, w.webhook_url⟩ ?_
  rw [hgood rows]
  exact List.mem_map_of_mem _ (List.mem_filter.mpr ⟨hw, hok⟩)

/-- Witness for C5 at a concrete row set with one resolution failure. -/
theorem webhook_fanout_isolated_witness :
    (fun w : BroadcastWebhook => w.guild_id ≠ 2 : BroadcastWebhook → Bool)
        ⟨1, "A", "urlA"⟩ = true ∧
    WebhookEffect.execute 1 "msg" true ∈
      broadcast_to_webhooks_run (fun w => w.guild_id ≠ 2) (fun _ => none)
        (fun _ => true) "msg" [⟨1, "A", "urlA"⟩, ⟨2, "B", "urlB"⟩] :=
  ⟨by decide,
   (webhook_fanout_isolated (fun w => w.guild_id ≠ 2) (fun _ => none)
      (fun _ => true) "msg" [⟨1, "A", "urlA"⟩, ⟨2, "B", "urlB"⟩]).2.2
      ⟨1, "A", "urlA"⟩ (by decide) (by decide)⟩

/-- Membership in `get_non_ignored_roles`: exactly the member roles that are
neither the guild's `@everyone` role nor configured as ignored. -/
theorem get_non_ignored_roles_mem (ignored : List Nat) (gid : Nat) :
    ∀ (roles : List Nat) (r : Nat),
      r ∈ get_non_ignored_roles roles ignored gid ↔
        r ∈ roles ∧ r ≠ everyone_role gid ∧ r ∉ ignored := by
  intro roles
  induction roles with
  | nil => simp [get_non_ignored_roles]
  | cons x rest ih =>
    intro r
    by_cases h1 : x = everyone_role gid
    · rw [get_non_ignored_roles, if_pos h1, ih r, List.mem_cons]
      constructor
      · rintro ⟨hr, hne, hni⟩
        exact ⟨Or.inr hr, hne, hni⟩
      · rintro ⟨hr | hr, hne, hni⟩
        · exact absurd (hr.trans h1) hne
        · exact ⟨hr, hne, hni⟩
    · by_cases h2 : x ∈ ignored
      · rw [get_non_ignored_roles, if_neg h1, if_pos h2, ih r, List.mem_cons]
        constructor
        · rintro ⟨hr, hne, hni⟩
          exact ⟨Or.inr hr, hne, hni⟩
        · rintro ⟨hr | hr, hne, hni⟩
          · exact absurd (hr ▸ h2) hni
          · exact ⟨hr, hne, hni⟩
      · rw [get_non_ignored_roles, if_neg h1, if_neg h2, List.mem_cons, ih r, List.mem_cons]
        constructor
        · rintro (rfl | ⟨hr, hne, hni⟩)
          · exact ⟨Or.inl rfl, h1, h2⟩
          · exact ⟨Or.inr hr, hne, hni⟩
        · rintro ⟨hr | hr, hne, hni⟩
          · exact Or.inl hr
          · exact Or.inr ⟨hr, hne, hni⟩

/-- C7: a member whose role set, after removing the guild's `@everyone` role
and the configured ignored roles, is non-empty is never auto-moderated — no
Discord mutation appears in the trace and (when the action level called for
enforcement) the engine only posts the informational skip message — while a
member whose remaining role set is empty is processed by dispatching the
resolved action level (emitting its Discord call when that level is above
`Notify`). -/
theorem role_gating_spec (env : DiscordEnv) (broadcast_type : BroadcastType)
    (listener : BroadcastListener) (bad_actor : BadActor) (target_user : User)
    (mem : Member) :
    ((∃ r ∈ mem.roles, r ≠ everyone_role listener.config.guild.id ∧
        r ∉ listener.config.server_config.ignored_roles) →
      (moderate_run env broadcast_type listener bad_actor target_user (some mem)).all
        (fun e => !e.is_discord_call) = true) ∧
    ((∃ r ∈ mem.roles, r ≠ everyone_role listener.config.guild.id ∧
        r ∉ listener.config.server_config.ignored_roles) →
      get_moderation_action broadcast_type bad_actor.actor_type
          listener.config.server_config ≠ ActionLevel.Notify →
      moderate_run env broadcast_type listener bad_actor target_user (some mem) =
        inform_about_non_ignored_run env
          (get_non_ignored_roles mem.roles listener.config.server_config.ignored_roles
            listener.config.guild.id)
          listener.log_channel listener.config.guild target_user) ∧
    (get_non_ignored_roles mem.roles listener.config.server_config.ignored_roles
        listener.config.guild.id = [] →
      get_moderation_action broadcast_type bad_actor.actor_type
          listener.config.server_config ≠ ActionLevel.Notify →
      moderate_run env broadcast_type listener bad_actor target_user (some mem) =
        (action_dispatch env
            (get_moderation_action broadcast_type bad_actor.actor_type
              listener.config.server_config)
            listener.config.guild target_user mem bad_actor.ban_reason).1 ++
          log_moderation_result_run
            (action_dispatch env
              (get_moderation_action broadcast_type bad_actor.actor_type
                listener.config.server_config)
              listener.config.guild target_user mem bad_actor.ban_reason).2
            target_user listener.config.guild) ∧
    (get_non_ignored_roles mem.roles listener.config.server_config.ignored_roles
        listener.config.guild.id = [] →
      get_moderation_action broadcast_type bad_actor.actor_type
          listener.config.server_config ≠ ActionLevel.Notify →
      (moderate_run env broadcast_type listener bad_actor target_user (some mem)).any
        Effect.is_discord_call = true) := by
  set al := get_moderation_action broadcast_type bad_actor.actor_type
    listener.config.server_config with hal_def
  set nir := get_non_ignored_roles mem.roles listener.config.server_config.ignored_roles
    listener.config.guild.id with hnir_def
  by_cases hal : al = ActionLevel.Notify
  · have htrace : moderate_run env broadcast_type listener bad_actor target_user
        (some mem) = [] := by
      unfold moderate_run
      rw [← hal_def, if_pos hal]
    refine ⟨?_, ?_, ?_, ?_⟩
    · intro _
      rw [htrace]
      rfl
    · intro _ hne
      exact absurd hal hne
    · intro _ hne
      exact absurd hal hne
    · intro _ hne
      exact absurd hal hne
  · have hnonempty : (∃ r ∈ mem.roles, r ≠ everyone_role listener.config.guild.id ∧
        r ∉ listener.config.server_config.ignored_roles) → nir ≠ [] := by
      rintro ⟨r, hr, hne, hni⟩ hnil
      have : r ∈ nir := (get_non_ignored_roles_mem _ _ mem.roles r).mpr ⟨hr, hne, hni⟩
      rw [hnil] at this
      cases this
    have htrace_skip : nir ≠ [] →
        moderate_run env broadcast_type listener bad_actor target_user (some mem) =
          inform_about_non_ignored_run env nir listener.log_channel
            listener.config.guild target_user := by
      intro hne
      unfold moderate_run
      rw [← hal_def, if_neg hal]
      simp only [← hnir_def]
      rw [if_pos hne]
    have htrace_action : nir = [] →
        moderate_run env broadcast_type listener bad_actor target_user (some mem) =
          (action_dispatch env al listener.config.guild target_user mem
            bad_actor.ban_reason).1 ++
            log_moderation_result_run
              (action_dispatch env al listener.config.guild target_user mem
                bad_actor.ban_reason).2 target_user listener.config.guild := by
      intro hnil
      unfold moderate_run
      rw [← hal_def, if_neg hal]
      simp only [← hnir_def]
      rw [if_neg (by rw [hnil]; exact fun h => h rfl)]
    refine ⟨?_, ?_, ?_, ?_⟩
    · intro hex
      rw [htrace_skip (hnonempty hex)]
      unfold inform_about_non_ignored_run
      by_cases hs : env.send_ok = true
      · rw [if_pos hs]
        rfl
      · rw [if_neg hs]
        rfl
    · intro hex _
      exact htrace_skip (hnonempty hex)
    · intro hnil _
      exact htrace_action hnil
    · intro hnil _
      rw [htrace_action hnil, List.any_append]
      have hdisp : (action_dispatch env al listener.config.guild target_user mem
          bad_actor.ban_reason).1.any Effect.is_discord_call = true := by
        obtain ⟨b, ub, k, t, s⟩ := env
        cases hcase : al with
        | Notify => exact absurd hcase hal
        | Timeout =>
          cases t <;> simp [action_dispatch, timeout_run, Effect.is_discord_call]
        | Kick =>
          cases k <;> simp [action_dispatch, kick_run, Effect.is_discord_call]
        | SoftBan =>
          cases b <;> cases ub <;>
            simp [action_dispatch, soft_ban_run, Effect.is_discord_call]
        | Ban =>
          cases b <;> simp [action_dispatch, ban_run, Effect.is_discord_call]
      rw [hdisp]
      rfl

/-- Witness for C7 at concrete members: one with a surviving role, one with
only ignored roles. -/
theorem role_gating_spec_witness :
    (∃ r ∈ [(5 : Nat), 88], r ≠ everyone_role witness_listener.config.guild.id ∧
      r ∉ witness_listener.config.server_config.ignored_roles) ∧
    (moderate_run env_all_ok .Report witness_listener witness_bad_actor witness_user
        (some ⟨⟨7, "evil"⟩, [5, 88]⟩)).all (fun e => !e.is_discord_call) = true ∧
    get_non_ignored_roles [5, 77] witness_listener.config.server_config.ignored_roles
        witness_listener.config.guild.id = [] ∧
    (moderate_run env_all_ok .Report witness_listener witness_bad_actor witness_user
        (some ⟨⟨7, "evil"⟩, [5, 77]⟩)).any Effect.is_discord_call = true :=
  ⟨⟨88, by decide, by decide, by decide⟩,
   (role_gating_spec env_all_ok .Report witness_listener witness_bad_actor witness_user
      ⟨⟨7, "evil"⟩, [5, 88]⟩).1 ⟨88, by decide, by decide, by decide⟩,
   by decide,
   (role_gating_spec env_all_ok .Report witness_listener witness_bad_actor witness_user
      ⟨⟨7, "evil"⟩, [5, 77]⟩).2.2.2 (by decide) (by decide)⟩

/-- In the member path, the action dispatch plus result logging posts a
successful log-channel result message when the action and the send succeed,
and reaches the central error logger when either fails. -/
theorem action_dispatch_logging (env : DiscordEnv) (al : ActionLevel)
    (guild : PartialGuild) (target : User) (mem : Member) (reason : String)
    (hal : al ≠ ActionLevel.Notify) :
    (action_ok env al = true ∧ env.send_ok = true →
      ((action_dispatch env al guild target mem reason).1 ++
        log_moderation_result_run (action_dispatch env al guild target mem reason).2
          target guild).any Effect.is_successful_send = true) ∧
    (action_ok env al = false ∨ env.send_ok = false →
      ((action_dispatch env al guild target mem reason).1 ++
        log_moderation_result_run (action_dispatch env al guild target mem reason).2
          target guild).any Effect.is_central_error = true) := by
  obtain ⟨b, ub, k, t, s⟩ := env
  cases al with
  | Notify => exact absurd rfl hal
  | Timeout =>
    cases t <;> cases s <;>
      simp [action_dispatch, timeout_run, log_moderation_result_run, action_ok,
        Effect.is_successful_send, Effect.is_central_error]
  | Kick =>
    cases k <;> cases s <;>
      simp [action_dispatch, kick_run, log_moderation_result_run, action_ok,
        Effect.is_successful_send, Effect.is_central_error]
  | SoftBan =>
    cases b <;> cases ub <;> cases s <;>
      simp [action_dispatch, soft_ban_run, log_moderation_result_run, action_ok,
        Effect.is_successful_send, Effect.is_central_error]
  | Ban =>
    cases b <;> cases s <;>
      simp [action_dispatch, ban_run, log_moderation_result_run, action_ok,
        Effect.is_successful_send, Effect.is_central_error]

/-- C6 (amended): in the member path every enforcing branch posts a result
message to the guild's log channel on success, and an action or posting
failure is logged centrally; the direct ban of a non-member posts its result
message on success but its failure is discarded (neither posted nor centrally
logged — see the counterexample); no failure ever propagates to `moderate`'s
caller, since `moderate_run` is a total function into an effect trace. -/
theorem moderate_logging_spec (env : DiscordEnv) (broadcast_type : BroadcastType)
    (listener : BroadcastListener) (bad_actor : BadActor) (target_user : User) :
    (∀ mem : Member,
      get_non_ignored_roles mem.roles listener.config.server_config.ignored_roles
          listener.config.guild.id = [] →
      get_moderation_action broadcast_type bad_actor.actor_type
          listener.config.server_config ≠ ActionLevel.Notify →
      ((action_ok env (get_moderation_action broadcast_type bad_actor.actor_type
            listener.config.server_config) = true ∧ env.send_ok = true →
        (moderate_run env broadcast_type listener bad_actor target_user
          (some mem)).any Effect.is_successful_send = true) ∧
       (action_ok env (get_moderation_action broadcast_type bad_actor.actor_type
            listener.config.server_config) = false ∨ env.send_ok = false →
        (moderate_run env broadcast_type listener bad_actor target_user
          (some mem)).any Effect.is_central_error = true))) ∧
    (get_moderation_action broadcast_type bad_actor.actor_type
        listener.config.server_config = ActionLevel.Ban →
      env.ban_ok = true → env.send_ok = true →
      (moderate_run env broadcast_type listener bad_actor target_user none).any
        Effect.is_successful_send = true) := by
  set al := get_moderation_action broadcast_type bad_actor.actor_type
    listener.config.server_config with hal_def
  constructor
  · intro mem hnil hal
    have htrace : moderate_run env broadcast_type listener bad_actor target_user
        (some mem) =
        (action_dispatch env al listener.config.guild target_user mem
          bad_actor.ban_reason).1 ++
          log_moderation_result_run
            (action_dispatch env al listener.config.guild target_user mem
              bad_actor.ban_reason).2 target_user listener.config.guild := by
      unfold moderate_run
      rw [← hal_def, if_neg hal]
      simp only
      rw [if_neg (by rw [hnil]; exact fun h => h rfl)]
    have hlog := action_dispatch_logging env al listener.config.guild target_user mem
      bad_actor.ban_reason hal
    rw [htrace]
    exact hlog
  · intro hban hb hs
    have htrace : moderate_run env broadcast_type listener bad_actor target_user none =
        (ban_run env listener.config.guild target_user bad_actor.ban_reason).1 := by
      unfold moderate_run
      rw [← hal_def, if_neg (by rw [hban]; exact fun h => by cases h), if_pos hban]
    rw [htrace]
    unfold ban_run
    rw [hb, hs]
    simp [Effect.is_successful_send]

/-- Witness for C6 at concrete inputs (member path, timeout level, failing
call; and non-member ban success). -/
theorem moderate_logging_spec_witness :
    (moderate_run ⟨true, true, true, false, true⟩ .Report
        { config := { guild := ⟨5, "G"⟩
                      server_config := { witness_config with spam_action_level := .Timeout }
                      users := [] }
          log_channel := ⟨9, "log"⟩ }
        witness_bad_actor witness_user (some ⟨⟨7, "evil"⟩, [5, 77]⟩)).any
      Effect.is_central_error = true ∧
    (moderate_run env_all_ok .Report witness_listener witness_bad_actor witness_user
        none).any Effect.is_successful_send = true :=
  ⟨((moderate_logging_spec ⟨true, true, true, false, true⟩ .Report
      { config := { guild := ⟨5, "G"⟩
                    server_config := { witness_config with spam_action_level := .Timeout }
                    users := [] }
        log_channel := ⟨9, "log"⟩ }
      witness_bad_actor witness_user).1 ⟨⟨7, "evil"⟩, [5, 77]⟩ (by decide) (by decide)).2
      (by decide),
   (moderate_logging_spec env_all_ok .Report witness_listener witness_bad_actor
      witness_user).2 (by decide) (by decide) (by decide)⟩

/-- Counterexample for C6 as stated: at action level Ban against a
non-member, with the ban call failing, the branch performs a Discord-side
mutation attempt but posts no result message and logs nothing centrally —
the helper's result is bound to `_ban_result` and discarded. -/
theorem moderate_nonmember_ban_failure_unlogged :
    moderate_run env_ban_fail .Report witness_listener witness_bad_actor witness_user
        none =
      [Effect.discord (.banWithReason 5 7 7 "Bad Actor spam (42)") false] ∧
    (moderate_run env_ban_fail .Report witness_listener witness_bad_actor witness_user
        none).any Effect.is_central_error = false ∧
    (moderate_run env_ban_fail .Report witness_listener witness_bad_actor witness_user
        none).any Effect.is_log_channel_send = false := by
  refine ⟨by decide, by decide, by decide⟩

/-- The channels accumulated by the `should_report` loop are the initial ones
plus the channels of the matching queue entries. -/
theorem should_report_loop_seen_mem (new_msg : HoneypotMessage) :
    ∀ (rest : List HoneypotMessage) (any_hp : Bool) (seen : List Nat) (c : Nat),
      c ∈ (should_report_loop new_msg rest any_hp seen).2 ↔
        c ∈ seen ∨ ∃ q ∈ rest, content_matches new_msg q ∧ q.channel_id = c := by
  intro rest
  induction rest with
  | nil =>
    intro any_hp seen c
    simp [should_report_loop]
  | cons q rest ih =>
    intro any_hp seen c
    simp only [should_report_loop]
    by_cases hm : q.user_id = new_msg.user_id ∧ q.content = new_msg.content
    · rw [if_pos hm]
      by_cases hc : q.channel_id ∈ seen
      · rw [if_pos hc, ih]
        constructor
        · rintro (h | ⟨q', hq', hmq', hcq'⟩)
          · exact Or.inl h
          · exact Or.inr ⟨q', List.mem_cons_of_mem _ hq', hmq', hcq'⟩
        · rintro (h | ⟨q', hq', hmq', hcq'⟩)
          · exact Or.inl h
          · rw [List.mem_cons] at hq'
            rcases hq' with rfl | hq'
            · exact Or.inl (hcq' ▸ hc)
            · exact Or.inr ⟨q', hq', hmq', hcq'⟩
      · rw [if_neg hc, ih]
        constructor
        · rintro (h | ⟨q', hq', hmq', hcq'⟩)
          · rw [List.mem_append, List.mem_singleton] at h
            rcases h with h | rfl
            · exact Or.inl h
            · exact Or.inr ⟨q, List.mem_cons_self q rest, hm, rfl⟩
          · exact Or.inr ⟨q', List.mem_cons_of_mem _ hq', hmq', hcq'⟩
        · rintro (h | ⟨q', hq', hmq', hcq'⟩)
          · exact Or.inl (List.mem_append.mpr (Or.inl h))
          · rw [List.mem_cons] at hq'
            rcases hq' with rfl | hq'
            · refine Or.inl (List.mem_append.mpr (Or.inr ?_))
              rw [List.mem_singleton]
              exact hcq'.symm
            · exact Or.inr ⟨q', hq', hmq', hcq'⟩
    · rw [if_neg hm, ih]
      constructor
      · rintro (h | ⟨q', hq', hmq', hcq'⟩)
        · exact Or.inl h
        · exact Or.inr ⟨q', List.mem_cons_of_mem _ hq', hmq', hcq'⟩
      · rintro (h | ⟨q', hq', hmq', hcq'⟩)
        · exact Or.inl h
        · rw [List.mem_cons] at hq'
          rcases hq' with rfl | hq'
          · exact absurd hmq' hm
          · exact Or.inr ⟨q', hq', hmq', hcq'⟩

/-- The `seen_channel_ids` accumulator never acquires a duplicate. -/
theorem should_report_loop_seen_nodup (new_msg : HoneypotMessage) :
    ∀ (rest : List HoneypotMessage) (any_hp : Bool) (seen : List Nat),
      seen.Nodup → (should_report_loop new_msg rest any_hp seen).2.Nodup := by
  intro rest
  induction rest with
  | nil =>
    intro any_hp seen h
    simpa [should_report_loop] using h
  | cons q rest ih =>
    intro any_hp seen h
    simp only [should_report_loop]
    by_cases hm : q.user_id = new_msg.user_id ∧ q.content = new_msg.content
    · rw [if_pos hm]
      by_cases hc : q.channel_id ∈ seen
      · rw [if_pos hc]
        exact ih any_hp seen h
      · rw [if_neg hc]
        refine ih _ _ ?_
        rw [(List.perm_append_singleton q.channel_id seen).nodup_iff]
        exact List.nodup_cons.mpr ⟨hc, h⟩
    · rw [if_neg hm]
      exact ih any_hp seen h

/-- Under per-channel consistency of the honeypot flag, the
`is_any_in_honeypot` accumulator tracks exactly whether some considered
message in an already-seen channel is a honeypot message. -/
theorem should_report_loop_any_iff (msgs : List HoneypotMessage)
    (hcons : honeypot_consistent msgs) (new_msg : HoneypotMessage) :
    ∀ (rest : List HoneypotMessage) (any_hp : Bool) (seen : List Nat),
      (∀ q ∈ rest, q ∈ msgs) →
      (any_hp = true ↔ ∃ m ∈ msgs, m.channel_id ∈ seen ∧ m.is_in_honeypot = true) →
      ((should_report_loop new_msg rest any_hp seen).1 = true ↔
        ∃ m ∈ msgs, m.channel_id ∈ (should_report_loop new_msg rest any_hp seen).2 ∧
          m.is_in_honeypot = true) := by
  intro rest
  induction rest with
  | nil =>
    intro any_hp seen _ hinv
    simpa [should_report_loop] using hinv
  | cons q rest ih =>
    intro any_hp seen hsub hinv
    simp only [should_report_loop]
    have hqmsgs : q ∈ msgs := hsub q (List.mem_cons_self q rest)
    have hsub' : ∀ x ∈ rest, x ∈ msgs := fun x hx => hsub x (List.mem_cons_of_mem _ hx)
    by_cases hm : q.user_id = new_msg.user_id ∧ q.content = new_msg.content
    · rw [if_pos hm]
      by_cases hc : q.channel_id ∈ seen
      · rw [if_pos hc]
        exact ih any_hp seen hsub' hinv
      · rw [if_neg hc]
        refine ih _ _ hsub' ?_
        constructor
        · intro hor
          rw [Bool.or_eq_true] at hor
          rcases hor with h | h
          · obtain ⟨m, hmm, hms, hmh⟩ := hinv.mp h
            exact ⟨m, hmm, List.mem_append.mpr (Or.inl hms), hmh⟩
          · exact ⟨q, hqmsgs,
              List.mem_append.mpr (Or.inr (List.mem_singleton.mpr rfl)), h⟩
        · rintro ⟨m, hmm, hms, hmh⟩
          rw [List.mem_append, List.mem_singleton] at hms
          rw [Bool.or_eq_true]
          rcases hms with hms | hms
          · exact Or.inl (hinv.mpr ⟨m, hmm, hms, hmh⟩)
          · exact Or.inr ((hcons q hqmsgs m hmm hms.symm).trans hmh)
    · rw [if_neg hm]
      exact ih any_hp seen hsub' hinv

/-- C1 (amended): provided every two of the considered messages (the queued
entries and the new one) that share a channel id agree on the honeypot flag —
which holds whenever the registered honeypot-channel set did not change
within the window, since the flag is computed from the channel id —
`should_report` returns true iff the same user has posted byte-identical
content in at least 3 distinct channels (counting the new message's own
channel) and at least one of those identical posts, old or new, was in a
honeypot channel. -/
theorem should_report_spec (queue : List HoneypotMessage) (new_msg : HoneypotMessage)
    (hcons : honeypot_consistent (new_msg :: queue)) :
    should_report queue new_msg = spec_should_report queue new_msg := by
  unfold should_report spec_should_report
  set res := should_report_loop new_msg queue new_msg.is_in_honeypot
    [new_msg.channel_id] with hres
  have hmem : ∀ c, c ∈ res.2 ↔ c ∈ match_channels queue new_msg := by
    intro c
    rw [hres, should_report_loop_seen_mem]
    unfold match_channels
    rw [List.mem_singleton, List.mem_cons]
    constructor
    · rintro (h | ⟨q, hq, hmq, hcq⟩)
      · exact Or.inl h
      · refine Or.inr (List.mem_map.mpr ⟨q, List.mem_filter.mpr ⟨hq, ?_⟩, hcq⟩)
        simpa using hmq
    · rintro (h | h)
      · exact Or.inl h
      · obtain ⟨q, hq, hcq⟩ := List.mem_map.mp h
        obtain ⟨hq', hmq⟩ := List.mem_filter.mp hq
        exact Or.inr ⟨q, hq', by simpa using hmq, hcq⟩
  have hnodup : res.2.Nodup :=
    should_report_loop_seen_nodup new_msg queue _ _ (by simp)
  have hlen : res.2.length = (match_channels queue new_msg).dedup.length := by
    have hperm : List.Perm res.2 (match_channels queue new_msg).dedup :=
      List.perm_of_nodup_nodup_toFinset_eq hnodup (List.nodup_dedup _) (by
        ext c
        simp only [List.mem_toFinset, List.mem_dedup]
        exact hmem c)
    exact hperm.length_eq
  have hany : res.1 = (new_msg.is_in_honeypot ||
      (queue.filter (fun q => decide (content_matches new_msg q))).any
        (fun m => m.is_in_honeypot)) := by
    have hinit : new_msg.is_in_honeypot = true ↔
        ∃ m ∈ new_msg :: queue, m.channel_id ∈ [new_msg.channel_id] ∧
          m.is_in_honeypot = true := by
      constructor
      · intro h
        exact ⟨new_msg, List.mem_cons_self new_msg queue,
          List.mem_singleton.mpr rfl, h⟩
      · rintro ⟨m, hmm, hms, hmh⟩
        rw [List.mem_singleton] at hms
        exact (hcons new_msg (List.mem_cons_self new_msg queue) m hmm hms.symm).trans hmh
    have hfin := should_report_loop_any_iff (new_msg :: queue) hcons new_msg queue
      new_msg.is_in_honeypot [new_msg.channel_id]
      (fun q hq => List.mem_cons_of_mem _ hq) hinit
    have hiff : (∃ m ∈ new_msg :: queue, m.channel_id ∈ res.2 ∧
        m.is_in_honeypot = true) ↔
        (new_msg.is_in_honeypot = true ∨
          ∃ q ∈ queue, content_matches new_msg q ∧ q.is_in_honeypot = true) := by
      constructor
      · rintro ⟨m, hmm, hms, hmh⟩
        rw [hmem] at hms
        unfold match_channels at hms
        rw [List.mem_cons] at hms
        rcases hms with hms | hms
        · exact Or.inl
            ((hcons new_msg (List.mem_cons_self new_msg queue) m hmm hms.symm).trans hmh)
        · obtain ⟨q, hq, hcq⟩ := List.mem_map.mp hms
          obtain ⟨hq', hmq⟩ := List.mem_filter.mp hq
          refine Or.inr ⟨q, hq', by simpa using hmq, ?_⟩
          exact (hcons q (List.mem_cons_of_mem _ hq') m hmm hcq).trans hmh
      · rintro (h | ⟨q, hq, hmq, hqh⟩)
        · refine ⟨new_msg, List.mem_cons_self new_msg queue, ?_, h⟩
          rw [hmem]
          exact List.mem_cons_self _ _
        · refine ⟨q, List.mem_cons_of_mem _ hq, ?_, hqh⟩
          rw [hmem]
          unfold match_channels
          refine List.mem_cons_of_mem _ (List.mem_map.mpr
            ⟨q, List.mem_filter.mpr ⟨hq, by simpa using hmq⟩, rfl⟩)
    have hrhs : (new_msg.is_in_honeypot ||
        (queue.filter (fun q => decide (content_matches new_msg q))).any
          (fun m => m.is_in_honeypot)) = true ↔
        (new_msg.is_in_honeypot = true ∨
          ∃ q ∈ queue, content_matches new_msg q ∧ q.is_in_honeypot = true) := by
      rw [Bool.or_eq_true, List.any_eq_true]
      constructor
      · rintro (h | ⟨q, hq, hqh⟩)
        · exact Or.inl h
        · obtain ⟨hq', hmq⟩ := List.mem_filter.mp hq
          exact Or.inr ⟨q, hq', by simpa using hmq, hqh⟩
      · rintro (h | ⟨q, hq, hmq, hqh⟩)
        · exact Or.inl h
        · exact Or.inr ⟨q, List.mem_filter.mpr ⟨hq, by simpa using hmq⟩, hqh⟩
    exact Bool.eq_iff_iff.mpr (hfin.trans (hiff.trans hrhs.symm))
  show (decide (3 ≤ res.2.length) && res.1) = _
  rw [hlen, hany]

/-- Counterexample for C1 as stated: the new message (user 1, channel 3,
content "x", not honeypot) matches three distinct channels, and one of the
identical queued posts (the second one, in channel 1) is in a honeypot
channel, so the claim demands `should_report = true`; but the code only ORs
the honeypot flag of the first match per channel, so it returns false. -/
theorem should_report_drops_duplicate_channel_honeypot_flag :
    should_report
        [⟨10, 1, 1, "x", 0, false⟩, ⟨10, 1, 1, "x", 0, true⟩, ⟨10, 1, 2, "x", 0, false⟩]
        ⟨10, 1, 3, "x", 0, false⟩ = false ∧
    spec_should_report
        [⟨10, 1, 1, "x", 0, false⟩, ⟨10, 1, 1, "x", 0, true⟩, ⟨10, 1, 2, "x", 0, false⟩]
        ⟨10, 1, 3, "x", 0, false⟩ = true := by
  refine ⟨by decide, by decide⟩

/-- Witness for C1 at a concrete consistent queue. -/
theorem should_report_spec_witness :
    honeypot_consistent
      (⟨10, 1, 3, "x", 0, false⟩ ::
        [⟨10, 1, 1, "x", 0, true⟩, ⟨10, 1, 2, "x", 0, false⟩]) ∧
    should_report [⟨10, 1, 1, "x", 0, true⟩, ⟨10, 1, 2, "x", 0, false⟩]
        ⟨10, 1, 3, "x", 0, false⟩ =
      spec_should_report [⟨10, 1, 1, "x", 0, true⟩, ⟨10, 1, 2, "x", 0, false⟩]
        ⟨10, 1, 3, "x", 0, false⟩ :=
  ⟨by decide,
   should_report_spec [⟨10, 1, 1, "x", 0, true⟩, ⟨10, 1, 2, "x", 0, false⟩]
     ⟨10, 1, 3, "x", 0, false⟩ (by decide)⟩

/-- Witness for C4 at a concrete two-entry map. -/
theorem lock_drop_spec_witness :
    (([(1, 5), (2, 7)] : LocksMap).map Prod.fst).Nodup ∧
    lookup_gen (self_removing_drop [(1, 5), (2, 7)] 1 5) 1 = none ∧
    lookup_gen (self_removing_drop [(1, 5), (2, 7)] 1 4) 1 = some 5 ∧
    lookup_gen (self_removing_drop (lock_insert_fresh [(2, 7)] 1 9) 1 5) 1 = some 9 :=
  ⟨by decide,
   (lock_drop_spec [(1, 5), (2, 7)] 1 5 (by decide)).2.1 (by decide),
   (lock_drop_spec [(1, 5), (2, 7)] 1 4 (by decide)).2.2.1 5 (by decide) (by decide),
   (lock_drop_spec [(2, 7)] 1 5 (by decide)).2.2.2 9 (by decide)⟩

end Janitor
